import Mathlib

/-!
# Verification of the MyFantasticToolkit desktop shell

Shallow embedding, in Lean 4, of the parts of the repository the frozen
claims are about:

* `utils/crypto.py` — the password encrypt/decrypt helpers;
* `core/plugin_base.py` and `core/plugin_manager.py` — the plugin
  compliance check, descriptor construction, and the load/unload
  operations of the plugin manager;
* `core/i18n.py` — the translation lookup `I18nManager.tr`;
* `plugins/comparison_variance_report/__init__.py` — SQL-parameter
  extraction (`_extract_sql_parameters`);
* `plugins/period_variance_report/__init__.py` — the row filter
  (`_apply_data_filters`);
* `plugins/support_web_toolkit/pages/4_Todo_List.py` — the prune of old
  done items (`clean_old_done_todos`);
* `plugins/little_capturer/utils/screenshot.py` — the capture overlay's
  mouse handlers;
* `plugins/little_capturer/utils/image_processor.py` — the bounded
  undo/redo history.

Python dictionaries are modelled as association lists, JSON values as an
inductive type, machine-independent integers as `Int`/`Nat` (Python
integers are unbounded, so no wrap-around modelling is needed), and
`None`-able values as `Option`.  External libraries (Qt, pandas,
`cryptography`, `datetime`) appear only through the concrete behavior
that the embedded code relies on; each such modelling point is called
out in the corresponding doc comment.
-/

namespace MFT

/-! ## Period Variance Report — `_apply_data_filters`
(`plugins/period_variance_report/__init__.py`, lines 550–588)

The pipeline converts the whole dataframe to strings
(`df = df.astype(str)`, line 499) before filtering, so every cell is a
`String` here.  A dataframe with the three filter columns present is a
list of rows in order; the pandas boolean-mask filters keep order and
are modelled with `List.filter`. -/

/-- The Python `str.upper()` method, modelled as a character-wise
upper-casing (the repository only upper-cases ASCII column values). -/
def pyUpper (s : String) : String := String.mk (s.data.map Char.toUpper)

/-- A row of the Period Variance Report CSV after `df.astype(str)`;
only the three columns inspected by `_apply_data_filters` are kept. -/
structure PvrRow where
  radar_country_code : String
  file_freq : String
  breach_value : String
  deriving Repr, DecidableEq

/-- Step 5.1 of `_apply_data_filters`:
`df[~df['radar_country_code'].isin(['GB', 'CA', 'HK', 'HS'])]`. -/
def pvrCountryFilter (rows : List PvrRow) : List PvrRow :=
  rows.filter (fun r =>
    !(["GB", "CA", "HK", "HS"].contains r.radar_country_code))

/-- Step 5.2: `df[df['file_freq'].str.upper() == 'MONTHLY']`. -/
def pvrFreqFilter (rows : List PvrRow) : List PvrRow :=
  rows.filter (fun r => pyUpper r.file_freq == "MONTHLY")

/-- Step 5.3: `df[df['breach_value'] == 'Breach']`. -/
def pvrBreachFilter (rows : List PvrRow) : List PvrRow :=
  rows.filter (fun r => r.breach_value == "Breach")

/-- `Plugin._apply_data_filters`, for an input table that contains all
three filter columns: the three masks are applied in sequence. -/
def applyDataFilters (rows : List PvrRow) : List PvrRow :=
  pvrBreachFilter (pvrFreqFilter (pvrCountryFilter rows))

/-- The predicate the spec describes: the row survives all three
filters. -/
def pvrKeep (r : PvrRow) : Bool :=
  !(["GB", "CA", "HK", "HS"].contains r.radar_country_code)
    && pyUpper r.file_freq == "MONTHLY"
    && r.breach_value == "Breach"

/-! ## Internationalization — `I18nManager.tr`
(`core/i18n.py`, lines 96–110)

`self.translations` is a dict from language code to a dict from key to
translated string; both are modelled as association lists.  The Python
code tests the looked-up value with `if translation:` — a *truthiness*
test, so an empty-string value is treated like a missing key. -/

/-- `table.get(key)` on a Python dict modelled as an association
list. -/
def dictGet (table : List (String × String)) (key : String) :
    Option String :=
  (table.find? (fun p => p.1 == key)).map (·.2)

/-- The fields of `I18nManager` that `tr` reads. -/
structure I18nState where
  current_language : String
  translations : List (String × List (String × String))

/-- Look up one language's table in `self.translations`
(`self.translations[lang]` guarded by `lang in self.translations`). -/
def langTable (st : I18nState) (lang : String) :
    Option (List (String × String)) :=
  (st.translations.find? (fun p => p.1 == lang)).map (·.2)

/-- The `if translation:` truthiness test of `tr`: a looked-up value
counts only when it is non-`None` *and* non-empty. -/
def truthyFilter (v : Option String) : Option String :=
  match v with
  | none => none
  | some s => if s = "" then none else some s

/-- One lookup step of `tr`: fetch `self.translations[lang].get(key)`
and apply the truthiness test. -/
def truthyLookup (st : I18nState) (lang key : String) : Option String :=
  match langTable st lang with
  | none => none
  | some table => truthyFilter (dictGet table key)

/-- The English-fallback step of `tr` (lines 104–107): consulted only
when the current language is not `en_US`. -/
def i18nFallback (st : I18nState) (key : String) : Option String :=
  if st.current_language ≠ "en_US" then truthyLookup st "en_US" key
  else none

/-- `I18nManager.tr(key, default)`: current language first, then the
`en_US` fallback, then `default if default is not None else key`. -/
def i18nTr (st : I18nState) (key : String) (default : Option String) :
    String :=
  match truthyLookup st st.current_language key with
  | some v => v
  | none =>
    match i18nFallback st key with
    | some v => v
    | none => default.getD key

/-! ## Support Web Toolkit — Todo List pruning
(`plugins/support_web_toolkit/pages/4_Todo_List.py`, lines 50–67)

`clean_old_done_todos` walks the `done` list, keeping an item when its
`done_time` string is non-empty and `datetime.strptime` parses it to a
time strictly later than `datetime.now() - timedelta(weeks=2)`; a
`ValueError` from `strptime` keeps the item; a missing or empty
`done_time` drops it.  Times are modelled as `Int` timestamps in
seconds (`timedelta(weeks=2)` = 1209600 s) and `strptime` with the
`'%Y%m%d %H:%M:%S'` format as a parameter
`parse : String → Option Int` (`none` = `ValueError`). -/

/-- One entry of the `done` list; `done_time = none` models a dict
without the key (`item.get('done_time', '')` then yields `''`). -/
structure TodoItem where
  display_name : String
  priority : String
  done_time : Option String
  deriving Repr, DecidableEq

/-- `datetime.now() - timedelta(weeks=2)`, in seconds. -/
def twoWeeksAgo (now : Int) : Int := now - 14 * 24 * 60 * 60

/-- The decision of the loop body of `clean_old_done_todos` for a
non-`None` `done_time` string: falsy strings are dropped, a parsed
time is kept iff strictly later than two weeks ago, a `ValueError`
keeps the item. -/
def cleanKeepStr (parse : String → Option Int) (now : Int)
    (s : String) : Bool :=
  if s = "" then false
  else
    match parse s with
    | some t => twoWeeksAgo now < t
    | none => true

/-- The per-item decision of the loop body of `clean_old_done_todos`:
`True` exactly when the item is appended to `cleaned_done`. -/
def cleanKeep (parse : String → Option Int) (now : Int)
    (item : TodoItem) : Bool :=
  match item.done_time with
  | none => false
  | some s => cleanKeepStr parse now s

/-- `clean_old_done_todos(done_list)`: the accumulation loop. -/
def cleanOldDoneTodos (parse : String → Option Int) (now : Int) :
    List TodoItem → List TodoItem
  | [] => []
  | item :: rest =>
    if cleanKeep parse now item
    then item :: cleanOldDoneTodos parse now rest
    else cleanOldDoneTodos parse now rest

/-- The prune step as invoked from `complete_todo` (lines 94–95):
only `done_list` is rebound, `todo_list` is not passed to
`clean_old_done_todos` at all. -/
def pruneTodos (parse : String → Option Int) (now : Int)
    (todo done : List TodoItem) : List TodoItem × List TodoItem :=
  (todo, cleanOldDoneTodos parse now done)

/-! ## LittleCapturer — capture overlay
(`plugins/little_capturer/utils/screenshot.py`, `CaptureWindow`)

The overlay state is the set of `CaptureWindow` fields the mouse/key
handlers touch, plus `visible` (the Qt shown/hidden flag) and
`emitted`, the ordered list of `area_selected` signal emissions.
Coordinates are `Int` (Qt pixel coordinates); a `QRect` built from two
corner points gets the component-wise minimum as origin and the
absolute differences as width/height, exactly as in
`mouseReleaseEvent` lines 324–329. -/

/-- A `QRect` as used by the overlay. -/
structure QRectM where
  x : Int
  y : Int
  w : Int
  h : Int
  deriving Repr, DecidableEq

/-- `QRect()`: the default-constructed null rectangle. -/
def emptyQRect : QRectM := ⟨0, 0, 0, 0⟩

/-- The `CaptureWindow` fields driven by the event handlers. -/
structure CaptureState where
  selecting : Bool
  startPoint : Int × Int
  endPoint : Int × Int
  selectionRect : QRectM
  visible : Bool
  emitted : List QRectM
  deriving Repr, DecidableEq

/-- The Python built-in `min` on two integers. -/
def pyMin (a b : Int) : Int := if a ≤ b then a else b

/-- The Python built-in `abs` on an integer. -/
def pyAbs (a : Int) : Int := if a < 0 then -a else a

/-- The selection rectangle computed from two corner points
(`QRect(min(..), min(..), abs(..), abs(..))`). -/
def selRect (p q : Int × Int) : QRectM :=
  ⟨pyMin p.1 q.1, pyMin p.2 q.2, pyAbs (q.1 - p.1), pyAbs (q.2 - p.2)⟩

/-- `mousePressEvent`: a left press arms the selection and anchors
both points at the cursor. -/
def mousePressEvent (leftButton : Bool) (pos : Int × Int)
    (s : CaptureState) : CaptureState :=
  if leftButton then
    { s with
      selecting := true
      startPoint := pos
      endPoint := pos
      selectionRect := emptyQRect }
  else s

/-- `mouseMoveEvent`: while selecting, track the cursor and update the
live rectangle. -/
def mouseMoveEvent (pos : Int × Int) (s : CaptureState) : CaptureState :=
  if s.selecting then
    { s with endPoint := pos, selectionRect := selRect s.startPoint pos }
  else s

/-- `mouseReleaseEvent`: on a left release while selecting, compute
the final rectangle; if its width *and* height strictly exceed 5,
emit `area_selected` once and hide the window, otherwise reset the
rectangle and stay visible. -/
def mouseReleaseEvent (leftButton : Bool) (pos : Int × Int)
    (s : CaptureState) : CaptureState :=
  if leftButton && s.selecting then
    let r := selRect s.startPoint pos
    if 5 < r.w ∧ 5 < r.h then
      { s with
        selecting := false
        endPoint := pos
        selectionRect := r
        emitted := s.emitted ++ [r]
        visible := false }
    else
      { s with
        selecting := false
        endPoint := pos
        selectionRect := emptyQRect }
  else s

/-- A full drag gesture: left press at `p`, any cursor moves, left
release at `q`. -/
def dragGesture (p : Int × Int) (moves : List (Int × Int))
    (q : Int × Int) (s : CaptureState) : CaptureState :=
  mouseReleaseEvent true q
    (moves.foldl (fun st m => mouseMoveEvent m st)
      (mousePressEvent true p s))

/-! ## LittleCapturer — image processor history
(`plugins/little_capturer/utils/image_processor.py`)

The fields `_edit_history` (a list of pixmap snapshots, modelled by
opaque `Nat` identifiers — the three annotation methods differ only in
what they paint, never in how they touch the history), `_edit_index`
(a Python `int`, `-1` initially, so `Int` here) and `_current_image`.
A null pixmap is modelled as `none`; every snapshot identifier stands
for a non-null pixmap. -/

/-- The `ImageProcessor` fields the history operations touch. -/
structure ImgProcState where
  history : List Nat
  editIndex : Int
  currentImage : Option Nat
  deriving Repr, DecidableEq

/-- The constructor state: empty history, `_edit_index = -1`. -/
def imgProcInit : ImgProcState := ⟨[], -1, none⟩

/-- Python list slicing `l[:stop]` (negative stops count from the
end). -/
def pySliceTo (l : List α) (stop : Int) : List α :=
  if 0 ≤ stop then l.take stop.toNat
  else l.take ((l.length : Int) + stop).toNat

/-- Python list indexing `l[i]` (negative indices count from the end;
`none` = `IndexError`). -/
def pyListGet (l : List α) (i : Int) : Option α :=
  if 0 ≤ i then l.get? i.toNat
  else if 0 ≤ i + (l.length : Int) then l.get? (i + l.length).toNat
  else none

/-- `_add_to_history(pixmap)` (lines 346–374): truncate any redo tail,
append the snapshot, point the index at it, set the current image, and
cap the history at `max_history = 20` entries by keeping the last
20. -/
def add_to_history (st : ImgProcState) (snap : Nat) : ImgProcState :=
  let hist0 :=
    if st.editIndex < (st.history.length : Int) - 1 then
      pySliceTo st.history (st.editIndex + 1)
    else st.history
  let hist1 := hist0 ++ [snap]
  if 20 < hist1.length then
    ⟨hist1.drop (hist1.length - 20), 19, some snap⟩
  else
    ⟨hist1, (hist1.length : Int) - 1, some snap⟩

/-- `set_image(pixmap)`: a null pixmap is rejected without touching
the state; otherwise the history is reset to the single new
snapshot. -/
def set_image (st : ImgProcState) (img : Option Nat) : ImgProcState :=
  match img with
  | none => st
  | some i => ⟨[i], 0, some i⟩

/-- The shared history effect of `add_text_annotation`,
`add_rectangle` and `add_arrow`: without a current image the method
returns without touching the state; otherwise the painted copy is
pushed through `_add_to_history`. -/
def annotate (st : ImgProcState) (snap : Nat) : ImgProcState :=
  match st.currentImage with
  | none => st
  | some _ => add_to_history st snap

/-- `undo()`: rejected when `_edit_index <= 0`; otherwise the index is
decremented first and the snapshot at the new index is read (an
`IndexError` there would be swallowed by the generic handler *after*
the decrement). -/
def undo (st : ImgProcState) : ImgProcState :=
  if st.editIndex ≤ 0 then st
  else
    match pyListGet st.history (st.editIndex - 1) with
    | some img => ⟨st.history, st.editIndex - 1, some img⟩
    | none => ⟨st.history, st.editIndex - 1, st.currentImage⟩

/-- `redo()`: rejected when `_edit_index >= len(history) - 1`;
otherwise the index is incremented first and the snapshot at the new
index is read. -/
def redo (st : ImgProcState) : ImgProcState :=
  if (st.history.length : Int) - 1 ≤ st.editIndex then st
  else
    match pyListGet st.history (st.editIndex + 1) with
    | some img => ⟨st.history, st.editIndex + 1, some img⟩
    | none => ⟨st.history, st.editIndex + 1, st.currentImage⟩

/-- `clear_history()`: the history is emptied and the index reset to
`-1`; the current image is left in place. -/
def clear_history (st : ImgProcState) : ImgProcState :=
  ⟨[], -1, st.currentImage⟩

/-- One user-visible image-processor operation. -/
inductive ImgOp where
  | setImage (img : Option Nat)
  | addText (snap : Nat)
  | addRectangle (snap : Nat)
  | addArrow (snap : Nat)
  | undo
  | redo
  | clearHistory
  deriving Repr, DecidableEq

/-- Dispatch one operation. -/
def imgStep (st : ImgProcState) : ImgOp → ImgProcState
  | .setImage img => set_image st img
  | .addText snap => annotate st snap
  | .addRectangle snap => annotate st snap
  | .addArrow snap => annotate st snap
  | .undo => undo st
  | .redo => redo st
  | .clearHistory => clear_history st

/-- Run a sequence of operations from the freshly constructed
processor. -/
def runImgOps (ops : List ImgOp) : ImgProcState :=
  ops.foldl imgStep imgProcInit

/-- The history invariant: at most 20 snapshots; the index is `-1`
exactly in the empty-history states and otherwise a valid position. -/
def ImgHistoryOk (s : ImgProcState) : Prop :=
  s.history.length ≤ 20
  ∧ (s.history = [] → s.editIndex = -1)
  ∧ (s.history ≠ [] → 0 ≤ s.editIndex ∧ s.editIndex < (s.history.length : Int))

/-- Access safety: whenever `undo` (resp. `redo`) passes its guard,
the decremented (resp. incremented) index it reads is in range. -/
def UndoRedoSafe (s : ImgProcState) : Prop :=
  (0 < s.editIndex →
    0 ≤ s.editIndex - 1 ∧ s.editIndex - 1 < (s.history.length : Int))
  ∧ (s.editIndex < (s.history.length : Int) - 1 →
    0 ≤ s.editIndex + 1 ∧ s.editIndex + 1 < (s.history.length : Int))

/-! ## Plugin contract and plugin manager
(`core/plugin_base.py`, `core/plugin_manager.py`)

`config.json` contents are arbitrary JSON, modelled by `JVal`.  Quote
characters inside the original error-message literals are elided here
(only the non-emptiness of the message matters to the claims), and the
generic `except Exception` branch of `_validate_config_file` carries a
fixed message in place of the interpolated exception text. -/

/-- A JSON value as produced by `json.load`. -/
inductive JVal where
  | null
  | bool (b : Bool)
  | num (n : Int)
  | str (s : String)
  | arr (elems : List JVal)
  | obj (fields : List (String × JVal))

/-- Python substring containment `needle in hay` (the empty needle is
contained in every string). -/
def strContains (hay needle : String) : Bool :=
  if needle = "" then true else (hay.splitOn needle).length != 1

/-- Python `key in value` for a string key: dict-key membership on
objects, element membership on lists (a string key can only equal a
string element), substring test on strings, and a `TypeError`
(modelled `Except.error`) on the remaining types. -/
def pyContains (key : String) : JVal → Except Unit Bool
  | .obj fields => .ok (fields.any (fun p => p.1 == key))
  | .arr elems => .ok (elems.any (fun e =>
      match e with
      | .str s => s == key
      | _ => false))
  | .str s => .ok (strContains s key)
  | _ => .error ()

/-- Dict lookup on the fields of a JSON object (`json.load` produces
unique keys; `find?` returns the binding). -/
def jObjGet (fields : List (String × JVal)) (key : String) : Option JVal :=
  (fields.find? (fun p => p.1 == key)).map (·.2)

/-- Python `value[key]` for a string key: a dict lookup on objects
(`none` = `KeyError`), a `TypeError` on every other type. -/
def pySubscript (key : String) : JVal → Except Unit (Option JVal)
  | .obj fields => .ok (jObjGet fields key)
  | _ => .error ()

/-- The message of the generic `except Exception` branch of
`_validate_config_file` (exception text elided). -/
def validateFailMsg : String := "Failed to validate config.json"

/-- The `for field in required_info_fields` loop of
`_validate_config_file`: the first missing `plugin_info` field aborts
with its message. -/
def checkInfoFields (pi : JVal) : List String → Option String
  | [] => none
  | f :: fs =>
    match pyContains f pi with
    | .error _ => some validateFailMsg
    | .ok b =>
      if b then checkInfoFields pi fs
      else some ("config.json missing required field: plugin_info." ++ f)

/-- `PluginBase._validate_config_file` on the parsed JSON document:
`none` means the validation passed, `some msg` the recorded
`error_info`. -/
def validateConfigFile (config : JVal) : Option String :=
  match pyContains "plugin_info" config with
  | .error _ => some validateFailMsg
  | .ok b1 =>
    if !b1 then some "config.json missing plugin_info field"
    else
      match pyContains "available_config" config with
      | .error _ => some validateFailMsg
      | .ok b2 =>
        if !b2 then some "config.json missing available_config field"
        else
          match pySubscript "plugin_info" config with
          | .error _ => some validateFailMsg
          | .ok none => some validateFailMsg
          | .ok (some pi) =>
            match checkInfoFields pi
                ["name", "display_name", "description", "version",
                 "author"] with
            | some msg => some msg
            | none =>
              match pySubscript "available_config" config with
              | .error _ => some validateFailMsg
              | .ok none => some validateFailMsg
              | .ok (some ac) =>
                match pyContains "enabled" ac with
                | .error _ => some validateFailMsg
                | .ok b3 =>
                  if !b3 then
                    some "config.json missing required field: available_config.enabled"
                  else
                    match pySubscript "enabled" ac with
                    | .error _ => some validateFailMsg
                    | .ok none => some validateFailMsg
                    | .ok (some v) =>
                      match v with
                      | .bool _ => none
                      | _ => some "config.json enabled field must be boolean"

/-- The five class-level identity attributes of a plugin class. -/
structure PluginClassMeta where
  NAME : String
  DISPLAY_NAME : String
  DESCRIPTION : String
  VERSION : String
  AUTHOR : String

/-- The `missing_attrs` computation of `_check_plugin_compliance`: an
attribute counts as missing when it equals
`f"Unknown {attr.replace('_',' ').title()}"`.  (Note the comparison
strings differ from the actual base-class defaults for all attributes
except `AUTHOR`; the model reproduces the comparison as written.) -/
def missingAttrs (m : PluginClassMeta) : List String :=
  (if m.NAME == "Unknown Name" then ["NAME"] else [])
  ++ (if m.DISPLAY_NAME == "Unknown Display Name" then ["DISPLAY_NAME"] else [])
  ++ (if m.DESCRIPTION == "Unknown Description" then ["DESCRIPTION"] else [])
  ++ (if m.VERSION == "Unknown Version" then ["VERSION"] else [])
  ++ (if m.AUTHOR == "Unknown Author" then ["AUTHOR"] else [])

/-- The state of a plugin package's `config.json` on disk. -/
inductive ConfigFile where
  | absent
  | invalid
  | parsed (j : JVal)

/-- One plugin package as the manager sees it.  `importOk` covers the
module import, `Plugin`-class lookup and transient instantiation of
`_get_plugin_info` (a failure yields the degraded error descriptor);
`initOk` models whether the `initialize()` call raises during
`load_plugin`. -/
structure PluginSource where
  name : String
  classMeta : PluginClassMeta
  importOk : Bool
  initOk : Bool
  config : ConfigFile

/-- The document `_generate_config_file` writes when `config.json` is
absent. -/
def generatedConfig (src : PluginSource) : JVal :=
  .obj [("plugin_info", .obj [
      ("name", .str src.name),
      ("display_name", .str src.classMeta.DISPLAY_NAME),
      ("description", .str src.classMeta.DESCRIPTION),
      ("version", .str src.classMeta.VERSION),
      ("author", .str src.classMeta.AUTHOR)]),
    ("available_config", .obj [("enabled", .bool true)])]

/-- The `is_available` / `error_info` pair a compliance check leaves
on the instance. -/
structure ComplianceOutcome where
  is_available : Bool
  error_info : Option String

/-- `PluginBase._check_plugin_compliance` (the plugin directory is
determinable whenever the module import succeeded, and the write of an
auto-generated config is modelled as succeeding): returns the outcome
and the on-disk config after a possible auto-generation. -/
def checkPluginCompliance (src : PluginSource) :
    ComplianceOutcome × ConfigFile :=
  if missingAttrs src.classMeta ≠ [] then
    (⟨false, some ("Missing required attributes: "
      ++ String.intercalate ", " (missingAttrs src.classMeta))⟩, src.config)
  else
    match src.config with
    | .absent => (⟨true, none⟩, .parsed (generatedConfig src))
    | .invalid => (⟨false, some "config.json is not valid JSON"⟩, .invalid)
    | .parsed j =>
      match validateConfigFile j with
      | none => (⟨true, none⟩, .parsed j)
      | some msg => (⟨false, some msg⟩, .parsed j)

/-- `PluginBase._load_plugin_config`: the `_enabled` value after
construction.  It starts as `True`; a readable config sets it to
`available_config.get('enabled', True)` — the *raw* value; every
failure path (no file, JSON error, non-dict config, non-dict
`available_config`) leaves `True` in place. -/
def loadConfigEnabled (cf : ConfigFile) : JVal :=
  match cf with
  | .absent => .bool true
  | .invalid => .bool true
  | .parsed (.obj fields) =>
    match jObjGet fields "available_config" with
    | some (.obj af) => (jObjGet af "enabled").getD (.bool true)
    | some _ => .bool true
    | none => .bool true
  | .parsed _ => .bool true

/-- The part of the discovery-time descriptor
(`get_plugin_info()` plus manager extras) that the claims are
about. -/
structure PluginDescriptor where
  name : String
  is_available : Bool
  error_info : Option String
  enabled : JVal

/-- The descriptor of a successfully imported plugin: compliance
outcome plus the raw `_enabled` value read back from the (possibly
auto-generated) config. -/
def mkDescriptor (src : PluginSource) : PluginDescriptor :=
  let r := checkPluginCompliance src
  ⟨src.name, r.1.is_available, r.1.error_info, loadConfigEnabled r.2⟩

/-- The degraded descriptor `discover_plugins` builds for a plugin
that fails to import (`enabled: False`). -/
def errorDescriptor (name : String) : PluginDescriptor :=
  ⟨name, false, some "error.plugin_import_failed", .bool false⟩

/-- `PluginManager.discover_plugins` over the plugin directory. -/
def discover_plugins (srcs : List PluginSource) : List PluginDescriptor :=
  srcs.map (fun src =>
    if src.importOk then mkDescriptor src else errorDescriptor src.name)

/-- Python truthiness of a JSON value, as used by
`plugin_info.get('enabled', False)` in `load_plugins`. -/
def pyTruthy : JVal → Bool
  | .null => false
  | .bool b => b
  | .num n => n != 0
  | .str s => s != ""
  | .arr elems => !elems.isEmpty
  | .obj fields => !fields.isEmpty

/-- The manager state the load/unload operations touch:
`self.plugins` (loaded instances keyed by name, each identified by the
construction counter value at its creation) plus the number of plugin
instances constructed so far. -/
structure PMState where
  plugins : List (String × Nat)
  instancesCreated : Nat
  deriving Repr, DecidableEq

/-- A freshly constructed manager. -/
def pmInit : PMState := ⟨[], 0⟩

/-- `PluginManager.load_plugin(name)`: an already-loaded name returns
success immediately; otherwise the module is imported, the class
instantiated (one new instance), `initialize()` called, and the
instance stored.  A missing directory, import failure, or raising
`initialize()` returns failure without storing. -/
def load_plugin (srcs : List PluginSource) (name : String)
    (st : PMState) : Bool × PMState :=
  if st.plugins.any (fun p => p.1 == name) then (true, st)
  else
    match srcs.find? (fun src => src.name == name) with
    | none => (false, st)
    | some src =>
      if !src.importOk then (false, st)
      else
        if !src.initOk then (false, ⟨st.plugins, st.instancesCreated + 1⟩)
        else (true, ⟨st.plugins ++ [(name, st.instancesCreated)],
          st.instancesCreated + 1⟩)

/-- `PluginManager.unload_plugin(name)`: a name not in the loaded set
returns success as a no-op; otherwise `cleanup()` runs (the base-class
implementation swallows its own exceptions) and the entry is
removed. -/
def unload_plugin (name : String) (st : PMState) : Bool × PMState :=
  if st.plugins.any (fun p => p.1 == name) then
    (true, ⟨st.plugins.filter (fun p => !(p.1 == name)),
      st.instancesCreated⟩)
  else (true, st)

/-- `PluginManager.load_plugins()`: discover all plugins, keep the
names whose descriptor `enabled` value is truthy, and load each. -/
def load_plugins (srcs : List PluginSource) (st : PMState) : PMState :=
  (((discover_plugins srcs).filter (fun d => pyTruthy d.enabled)).map
    (fun d => d.name)).foldl (fun s n => (load_plugin srcs n s).2) st

/-- A concrete plugin package whose `config.json` has a complete
`plugin_info` but lacks `available_config.enabled`. -/
def nonCompliantSrc : PluginSource :=
  ⟨"demo",
   ⟨"demo", "Demo", "A demo plugin", "1.0.1", "someone"⟩,
   true, true,
   .parsed (.obj [
     ("plugin_info", .obj [
       ("name", .str "demo"),
       ("display_name", .str "Demo"),
       ("description", .str "A demo plugin"),
       ("version", .str "1.0.1"),
       ("author", .str "someone")]),
     ("available_config", .obj [])])⟩

/-- A concrete plugin package whose `available_config.enabled` is the
truthy non-boolean string `"yes"`. -/
def nonBoolEnabledSrc : PluginSource :=
  ⟨"demo2",
   ⟨"demo2", "Demo2", "Another demo plugin", "1.0.1", "someone"⟩,
   true, true,
   .parsed (.obj [
     ("plugin_info", .obj [
       ("name", .str "demo2"),
       ("display_name", .str "Demo2"),
       ("description", .str "Another demo plugin"),
       ("version", .str "1.0.1"),
       ("author", .str "someone")]),
     ("available_config", .obj [("enabled", .str "yes")])])⟩

/-! ## Comparison Variance Report — SQL parameter extraction
(`plugins/comparison_variance_report/__init__.py`,
`Plugin._extract_sql_parameters`, lines 470–596)

A filtered spreadsheet is a list of rows; each relevant cell is either
a pandas `NaN` (`none`, removed by `.dropna()`) or a value.  A
`Reporting Date` cell is either a datetime-like object — whose
`strftime('%Y-%m-%d')` rendering the model carries directly — or a
plain string that the code pushes through a chain of six
`datetime.strptime` formats; that chain is the parameter
`parse : String → Option String` (`some` = the `'%Y-%m-%d'` rendering
of the parsed date, `none` = no format matched).  Frequencies and
record-type cells are strings.  Per-frame `.dropna().unique()` is
`filterMap` plus `dedup` (first occurrences, order preserved), and
`list(set(...))` over the concatenation is a further `dedup` — only
its element count and sole member (in the singleton case) are ever
used.

When no date format matches, the `for`–`else` branch at line 510
interpolates an undefined variable `e` into its log string, raising a
`NameError` that the enclosing generic handler turns into the
`sql_params_extract_failed` log entry and `return None`; the model
maps that branch to the corresponding error key directly. -/

/-- A `Reporting Date` cell (after `dropna()`). -/
inductive DVal where
  | dt (ymd : String)
  | str (s : String)
  deriving Repr, DecidableEq

/-- One filtered spreadsheet row, restricted to the columns
`_extract_sql_parameters` reads. -/
structure CvrRow where
  reportingDate : Option DVal
  frequency : Option String
  recordType : Option String
  groupSubSysId : Option String
  sourceTableName : Option String
  outputTableName : Option String
  deriving Repr, DecidableEq

/-- One filtered spreadsheet (UK or HK) with its optional-column
presence flags (`excel_col in data.columns`). -/
structure CvrFrame where
  rows : List CvrRow
  hasGroupSubSysCol : Bool
  hasSourceTableCol : Bool
  hasOutputTableCol : Bool
  deriving Repr, DecidableEq

/-- `data['Reporting Date'].dropna().unique()` of one optional
frame. -/
def frameDates (f : Option CvrFrame) : List DVal :=
  match f with
  | none => []
  | some fr => (fr.rows.filterMap (·.reportingDate)).dedup

/-- `data['Frequency'].dropna().unique()` of one optional frame. -/
def frameFreqs (f : Option CvrFrame) : List String :=
  match f with
  | none => []
  | some fr => (fr.rows.filterMap (·.frequency)).dedup

/-- `data['Record Type'].dropna().unique()` of one optional frame. -/
def frameRecordTypes (f : Option CvrFrame) : List String :=
  match f with
  | none => []
  | some fr => (fr.rows.filterMap (·.recordType)).dedup

/-- The reporting-date stage: uniqueness check, then normalization to
`YYYY-MM-DD` (datetime objects via `strftime`, strings via the
six-format `strptime` chain). -/
def extractDate (parse : String → Option String) (dates : List DVal) :
    Except String String :=
  match dates.dedup with
  | [d] =>
    match d with
    | .dt ymd => .ok ymd
    | .str s =>
      match parse s with
      | some r => .ok r
      | none =>
        .error "plugin.comparison_variance_report.sql_params_extract_failed"
  | _ => .error "plugin.comparison_variance_report.reporting_date_not_unique"

/-- The frequency stage: uniqueness check, then the case-insensitive
`MONTHLY` check (`unique_freqs[0].upper() != 'MONTHLY'`). -/
def extractFreq (freqs : List String) : Except String String :=
  match freqs.dedup with
  | [f] =>
    if pyUpper f ≠ "MONTHLY" then
      .error "plugin.comparison_variance_report.freq_not_monthly"
    else .ok f
  | _ => .error "plugin.comparison_variance_report.freq_not_unique"

/-- One optional WHERE-clause field: the deduplicated values of an
optional column across both frames, or `none` when the column exists
in neither supplied frame. -/
def additionalField (uk hk : Option CvrFrame) (has : CvrFrame → Bool)
    (get : CvrRow → Option String) : Option (List String) :=
  let ukVals := match uk with
    | some fr => if has fr then some ((fr.rows.filterMap get).dedup) else none
    | none => none
  let hkVals := match hk with
    | some fr => if has fr then some ((fr.rows.filterMap get).dedup) else none
    | none => none
  if ukVals.isSome || hkVals.isSome then
    some ((ukVals.getD [] ++ hkVals.getD []).dedup)
  else none

/-- The `additional_fields` dict, in the loop's field order. -/
def additionalFields (uk hk : Option CvrFrame) :
    List (String × List String) :=
  (match additionalField uk hk (·.hasGroupSubSysCol) (·.groupSubSysId) with
   | some vs => [("radar_group_sub_sys_id", vs)]
   | none => [])
  ++ (match additionalField uk hk (·.hasSourceTableCol) (·.sourceTableName) with
   | some vs => [("table_name_source", vs)]
   | none => [])
  ++ (match additionalField uk hk (·.hasOutputTableCol) (·.outputTableName) with
   | some vs => [("table_name_output", vs)]
   | none => [])

/-- The `sql_params` dict returned on success. -/
structure SqlParams where
  reporting_date : String
  freq : String
  uniq_record_type_list : List String
  additional_fields : List (String × List String)
  deriving Repr, DecidableEq

/-- `Plugin._extract_sql_parameters(uk_data, hk_data)`: `Except.error`
carries the translation key of the error line logged just before the
corresponding `return None`. -/
def extractSqlParameters (parse : String → Option String)
    (uk hk : Option CvrFrame) : Except String SqlParams :=
  match extractDate parse (frameDates uk ++ frameDates hk) with
  | .error e => .error e
  | .ok d =>
    match extractFreq (frameFreqs uk ++ frameFreqs hk) with
    | .error e => .error e
    | .ok f =>
      .ok ⟨d, f,
        ((frameRecordTypes uk ++ frameRecordTypes hk).dedup).map pyUpper,
        additionalFields uk hk⟩

/-- The decision of `_generate_sql` (lines 388–393): the SQL text is
built and placed in the output box iff parameter extraction returned
parameters. -/
def generateSqlEmits (parse : String → Option String)
    (uk hk : Option CvrFrame) : Bool :=
  (extractSqlParameters parse uk hk).toOption.isSome

/-! ## Crypto Manager (`utils/crypto.py`)

`encrypt_password` Fernet-encrypts the UTF-8 bytes of the password and
base64-encodes the token; `decrypt_password` reverses this, returning
its input unchanged whenever the input does not look like an
encryption output (`_is_encrypted`: base64-decodable to more than 32
bytes) or any step of the reversal raises.

The third-party capabilities are modelled concretely, keeping exactly
the properties the embedded code relies on:

* **UTF-8 codec** — byte strings are `List Nat`; `utf8Encode` is the
  code-point sequence of the string (injective, with `utf8Decode` its
  exact partial inverse; `utf8Decode` failing models
  `UnicodeDecodeError`).
* **Fernet** — a token is a fixed 41-byte header (version, timestamp,
  IV, HMAC) followed by the payload; `fernetDecrypt` succeeds exactly
  on such tokens (modelling that forging a token without the derived
  key is infeasible) and always yields more than 32 bytes, matching
  the `_is_encrypted` heuristic.  The real Fernet draws a random IV;
  the model keeps the deterministic skeleton, which the claims do not
  distinguish.
* **urlsafe base64** — an injective encoding of byte strings into
  strings with an exact partial decoder (`b64decode` failing models
  `binascii.Error`); the concrete alphabet is irrelevant to the
  claims, so a simple unary block code is used. -/

/-- `password.encode('utf-8')`, as the code-point sequence. -/
def utf8Encode (s : String) : List Nat := s.data.map Char.toNat

/-- `bytes.decode('utf-8')`: the exact partial inverse of
`utf8Encode`; `none` models `UnicodeDecodeError`. -/
def utf8Decode (l : List Nat) : Option String :=
  if l.all (fun n => decide n.isValidChar) then
    some (String.mk (l.map Char.ofNat))
  else none

/-- The modelled Fernet token header (41 bytes: version, timestamp,
IV, HMAC). -/
def fernetHeader : List Nat := 128 :: List.replicate 40 0

/-- `Fernet(key).encrypt(data)`. -/
def fernetEncrypt (m : List Nat) : List Nat := fernetHeader ++ m

/-- `Fernet(key).decrypt(data)`: succeeds exactly on well-formed
tokens; `none` models `InvalidToken`. -/
def fernetDecrypt (t : List Nat) : Option (List Nat) :=
  if t.take 41 = fernetHeader then some (t.drop 41) else none

/-- The character stream of the modelled base64 encoding: each byte
`n` becomes a block of `n` copies of `a` closed by one `b`. -/
def b64encChars : List Nat → List Char
  | [] => []
  | n :: ns => List.replicate n 'a' ++ 'b' :: b64encChars ns

/-- Decoder state machine over the character stream (`k` counts the
`a` run of the current block). -/
def b64decAux : List Char → Nat → Option (List Nat)
  | [], _ => none
  | c :: rest, k =>
    if c = 'a' then b64decAux rest (k + 1)
    else if c = 'b' then
      match rest with
      | [] => some [k]
      | _ => (b64decAux rest 0).map (k :: ·)
    else none

/-- Decode a whole character stream (the empty stream is the empty
byte string). -/
def b64decChars (cs : List Char) : Option (List Nat) :=
  match cs with
  | [] => some []
  | _ => b64decAux cs 0

/-- `base64.urlsafe_b64encode(..).decode('utf-8')`. -/
def b64encode (l : List Nat) : String := String.mk (b64encChars l)

/-- `base64.urlsafe_b64decode(..)`; `none` models a decoding
exception. -/
def b64decode (s : String) : Option (List Nat) :=
  b64decChars s.data

/-- `CryptoManager.encrypt_password` (lines 55–77): the empty string
short-circuits; otherwise the UTF-8 bytes are Fernet-encrypted and the
token base64-encoded. -/
def encrypt_password (password : String) : String :=
  if password = "" then ""
  else b64encode (fernetEncrypt (utf8Encode password))

/-- `CryptoManager._is_encrypted` (lines 108–122): base64-decodable to
more than 32 bytes. -/
def isEncrypted (text : String) : Bool :=
  match b64decode text with
  | some decoded => decide (32 < decoded.length)
  | none => false

/-- The final step of `decrypt_password`:
`decrypted_bytes.decode('utf-8')`, returning the original string on a
`UnicodeDecodeError`. -/
def decodePlain (t : String) (db : List Nat) : String :=
  match utf8Decode db with
  | none => t
  | some s => s

/-- The Fernet step of `decrypt_password`: `fernet.decrypt(..)`,
returning the original string on `InvalidToken`. -/
def decryptToken (t : String) (eb : List Nat) : String :=
  match fernetDecrypt eb with
  | none => t
  | some db => decodePlain t db

/-- `CryptoManager.decrypt_password` (lines 79–106): the empty string
short-circuits; a non-encrypted-looking input is returned unchanged;
any failure during decode/decrypt is caught and the original string
returned. -/
def decrypt_password (t : String) : String :=
  if t = "" then ""
  else if !(isEncrypted t) then t
  else
    match b64decode t with
    | none => t
    | some eb => decryptToken t eb

end MFT

/-! # Claim theorems -/

namespace MFT

/-- Claim C6: for every input table containing the columns
`radar_country_code`, `file_freq`, and `breach_value`, the Period
Variance Report filter returns exactly the rows (in their original
order) whose `radar_country_code` is not one of GB, CA, HK, HS, whose
`file_freq` upper-cases to MONTHLY, and whose `breach_value` equals the
string `"Breach"`. -/
theorem applyDataFilters_eq_filter (rows : List PvrRow) :
    applyDataFilters rows = rows.filter pvrKeep := by
  unfold applyDataFilters pvrBreachFilter pvrFreqFilter pvrCountryFilter
  rw [List.filter_filter, List.filter_filter]
  apply List.filter_congr
  intro r _
  unfold pvrKeep
  cases hc : (["GB", "CA", "HK", "HS"].contains r.radar_country_code) <;>
    cases hf : (pyUpper r.file_freq == "MONTHLY") <;>
      cases hb : (r.breach_value == "Breach") <;>
        simp [hc, hf, hb]

/-- Claim C4, counterexample to the claim as stated: the key
`app.title` is present in the English table (with the empty string as
its value) and absent from the active `zh_CN` table, yet `tr` returns
the raw key, not the English value — the `if translation:` truthiness
test in `I18nManager.tr` treats an empty-string translation as
missing. -/
theorem i18nTr_empty_english_value_cex :
    dictGet [("app.title", "")] "app.title" = some ""
  ∧ dictGet ([] : List (String × String)) "app.title" = none
  ∧ "zh_CN" ≠ "en_US"
  ∧ i18nTr ⟨"zh_CN", [("zh_CN", []), ("en_US", [("app.title", "")])]⟩
      "app.title" none = "app.title"
  ∧ "app.title" ≠ "" := by
  refine ⟨rfl, rfl, by decide, rfl, by decide⟩

/-- Claim C4 (amended): for every key whose English value is
*non-empty* and which is absent from the active language's table,
`tr(key)` returns the English value rather than the raw key (an
empty-string English value is treated as missing by the truthiness
test); and for every key present in no table, `tr(key, default)`
returns `default` when a default is supplied and the key itself
otherwise. -/
theorem i18nTr_fallback (st : I18nState) (key v : String) :
    (st.current_language ≠ "en_US" →
      (∀ ct, langTable st st.current_language = some ct →
        dictGet ct key = none) →
      (∃ et, langTable st "en_US" = some et ∧ dictGet et key = some v) →
      v ≠ "" →
      i18nTr st key none = v)
  ∧ ((∀ lang table, (lang, table) ∈ st.translations →
        dictGet table key = none) →
      (∀ d, i18nTr st key (some d) = d) ∧ i18nTr st key none = key) := by
  have hnone : ∀ lang,
      (∀ t, langTable st lang = some t → dictGet t key = none) →
      truthyLookup st lang key = none := by
    intro lang h
    unfold truthyLookup
    cases hlt : langTable st lang with
    | none => rfl
    | some t =>
      show truthyFilter (dictGet t key) = none
      rw [h t hlt]
      rfl
  constructor
  · intro hcur habsent ⟨et, het, hv⟩ hne
    have h1 : truthyLookup st st.current_language key = none :=
      hnone _ habsent
    have h2 : i18nFallback st key = some v := by
      unfold i18nFallback
      rw [if_pos hcur]
      unfold truthyLookup
      rw [het]
      show truthyFilter (dictGet et key) = some v
      rw [hv]
      show (if v = "" then none else some v) = some v
      rw [if_neg hne]
    unfold i18nTr
    rw [h1, h2]
  · intro habsent
    have hall : ∀ lang, truthyLookup st lang key = none := by
      intro lang
      apply hnone
      intro t hlt
      apply habsent lang t
      unfold langTable at hlt
      cases hf : st.translations.find? (fun p => p.1 == lang) with
      | none => rw [hf] at hlt; cases hlt
      | some p =>
        rw [hf] at hlt
        have hp := List.mem_of_find?_eq_some hf
        have hbeq : p.1 = lang := by
          have hb := List.find?_some hf
          simpa using hb
        have hval : p.2 = t := by simpa using hlt
        have hpe : p = (lang, t) := by
          obtain ⟨p1, p2⟩ := p
          simp only at hbeq hval
          rw [hbeq, hval]
        rw [← hpe]
        exact hp
    have hfb : i18nFallback st key = none := by
      unfold i18nFallback
      by_cases hc : st.current_language ≠ "en_US"
      · rw [if_pos hc, hall]
      · rw [if_neg hc]
    refine ⟨fun d => ?_, ?_⟩
    · unfold i18nTr
      rw [hall, hfb]
      rfl
    · unfold i18nTr
      rw [hall, hfb]
      rfl

/-- Witness for `i18nTr_fallback`, at concrete states: fallback to a
non-empty English value, and default/key behavior for an unknown
key. -/
theorem i18nTr_fallback_witness :
    i18nTr ⟨"zh_CN", [("zh_CN", [("a", "x")]), ("en_US", [("k", "Hello")])]⟩
      "k" none = "Hello"
  ∧ i18nTr ⟨"zh_CN", []⟩ "zzz" (some "d") = "d"
  ∧ i18nTr ⟨"zh_CN", []⟩ "zzz" none = "zzz" := by
  refine ⟨?_, ?_, ?_⟩
  · exact (i18nTr_fallback _ "k" "Hello").1 (by decide)
      (by intro ct hct
          have h2 : some ([("a", "x")] : List (String × String)) = some ct :=
            hct
          rw [← Option.some.inj h2]
          rfl)
      ⟨[("k", "Hello")], rfl, rfl⟩ (by decide)
  · exact (((i18nTr_fallback ⟨"zh_CN", []⟩ "zzz" "").2
      (by intro _ _ h; cases h)).1 "d")
  · exact ((i18nTr_fallback ⟨"zh_CN", []⟩ "zzz" "").2
      (by intro _ _ h; cases h)).2

/-- The prune loop is a filter by `cleanKeep` (helper, shared by the
todo-pruning theorems). -/
theorem cleanOldDoneTodos_eq_filter (parse : String → Option Int)
    (now : Int) (done : List TodoItem) :
    cleanOldDoneTodos parse now done = done.filter (cleanKeep parse now) := by
  induction done with
  | nil => rfl
  | cons item rest ih =>
    by_cases h : cleanKeep parse now item
    · simp [cleanOldDoneTodos, h, ih, List.filter_cons]
    · simp [cleanOldDoneTodos, h, ih, List.filter_cons]

/-- Claim C8: pruning removes each done item whose parsed completion
time lies more than two weeks before `now`, retains each done item
whose non-empty completion time parses to a moment within the last two
weeks, and the prune step leaves the pending todo list untouched
(it is not even passed to `clean_old_done_todos`). -/
theorem pruneTodos_spec (parse : String → Option Int) (now : Int)
    (todo done : List TodoItem) :
    (pruneTodos parse now todo done).1 = todo
  ∧ (pruneTodos parse now todo done).2 = done.filter (cleanKeep parse now)
  ∧ (∀ item, item ∈ done → ∀ s t, item.done_time = some s →
      parse s = some t →
      (t < twoWeeksAgo now → item ∉ cleanOldDoneTodos parse now done)
    ∧ (s ≠ "" → twoWeeksAgo now < t → t ≤ now →
        item ∈ cleanOldDoneTodos parse now done)) := by
  refine ⟨rfl, cleanOldDoneTodos_eq_filter parse now done, ?_⟩
  intro item hmem s t hdt hparse
  rw [cleanOldDoneTodos_eq_filter]
  constructor
  · intro hold hcontra
    have hkeep := (List.mem_filter.mp hcontra).2
    unfold cleanKeep at hkeep
    rw [hdt] at hkeep
    have hkeep2 : cleanKeepStr parse now s = true := hkeep
    unfold cleanKeepStr at hkeep2
    by_cases hs : s = ""
    · rw [if_pos hs] at hkeep2; cases hkeep2
    · rw [if_neg hs, hparse] at hkeep2
      have h3 : decide (twoWeeksAgo now < t) = true := hkeep2
      have := of_decide_eq_true h3
      omega
  · intro hs hrecent _
    apply List.mem_filter.mpr
    refine ⟨hmem, ?_⟩
    unfold cleanKeep
    rw [hdt]
    show cleanKeepStr parse now s = true
    unfold cleanKeepStr
    rw [if_neg hs, hparse]
    show decide (twoWeeksAgo now < t) = true
    exact decide_eq_true hrecent

/-- Witness for `pruneTodos_spec`: with `now = 2000000` s, an item
completed at time 1 (more than two weeks before) is removed and an
item completed at time 1999990 (within the window) is retained; the
pending list comes through unchanged. -/
theorem pruneTodos_spec_witness :
    (pruneTodos
        (fun s => if s = "old" then some 1
          else if s = "new" then some 1999990 else none)
        2000000 [⟨"p", "m", none⟩]
        [⟨"a", "low", some "old"⟩, ⟨"b", "low", some "new"⟩]).1
      = [⟨"p", "m", none⟩]
  ∧ (⟨"a", "low", some "old"⟩ : TodoItem) ∉
      cleanOldDoneTodos
        (fun s => if s = "old" then some 1
          else if s = "new" then some 1999990 else none)
        2000000 [⟨"a", "low", some "old"⟩, ⟨"b", "low", some "new"⟩]
  ∧ (⟨"b", "low", some "new"⟩ : TodoItem) ∈
      cleanOldDoneTodos
        (fun s => if s = "old" then some 1
          else if s = "new" then some 1999990 else none)
        2000000 [⟨"a", "low", some "old"⟩, ⟨"b", "low", some "new"⟩] := by
  have h := pruneTodos_spec
    (fun s => if s = "old" then some 1
      else if s = "new" then some 1999990 else none)
    2000000 [⟨"p", "m", none⟩]
    [⟨"a", "low", some "old"⟩, ⟨"b", "low", some "new"⟩]
  refine ⟨h.1, ?_, ?_⟩
  · exact (h.2.2 ⟨"a", "low", some "old"⟩ (by simp) "old" 1 rfl rfl).1
      (by decide)
  · exact (h.2.2 ⟨"b", "low", some "new"⟩ (by simp) "new" 1999990 rfl
      rfl).2 (by decide) (by decide) (by decide)

/-- Claim C10: the prune removes every done item whose `done_time` is
absent or the empty string, and retains every done item whose
`done_time` is a non-empty string on which the parse fails (the
`except ValueError` branch keeps the item). -/
theorem cleanOldDoneTodos_edge_cases (parse : String → Option Int)
    (now : Int) (done : List TodoItem) :
    ∀ item, item ∈ done →
      ((item.done_time = none ∨ item.done_time = some "") →
        item ∉ cleanOldDoneTodos parse now done)
    ∧ (∀ s, item.done_time = some s → s ≠ "" → parse s = none →
        item ∈ cleanOldDoneTodos parse now done) := by
  intro item hmem
  rw [cleanOldDoneTodos_eq_filter]
  constructor
  · intro hdt hcontra
    have hkeep := (List.mem_filter.mp hcontra).2
    unfold cleanKeep at hkeep
    rcases hdt with h | h <;> rw [h] at hkeep
    · cases hkeep
    · have hk2 : cleanKeepStr parse now "" = true := hkeep
      unfold cleanKeepStr at hk2
      rw [if_pos rfl] at hk2
      cases hk2
  · intro s hdt hs hparse
    apply List.mem_filter.mpr
    refine ⟨hmem, ?_⟩
    unfold cleanKeep
    rw [hdt]
    show cleanKeepStr parse now s = true
    unfold cleanKeepStr
    rw [if_neg hs, hparse]

/-- Witness for `cleanOldDoneTodos_edge_cases`: an item without a
`done_time`, one with an empty `done_time`, and one with an unparsable
`done_time`. -/
theorem cleanOldDoneTodos_edge_cases_witness :
    (⟨"a", "l", none⟩ : TodoItem) ∉
      cleanOldDoneTodos (fun _ => none) 0
        [⟨"a", "l", none⟩, ⟨"b", "l", some ""⟩, ⟨"c", "l", some "x"⟩]
  ∧ (⟨"b", "l", some ""⟩ : TodoItem) ∉
      cleanOldDoneTodos (fun _ => none) 0
        [⟨"a", "l", none⟩, ⟨"b", "l", some ""⟩, ⟨"c", "l", some "x"⟩]
  ∧ (⟨"c", "l", some "x"⟩ : TodoItem) ∈
      cleanOldDoneTodos (fun _ => none) 0
        [⟨"a", "l", none⟩, ⟨"b", "l", some ""⟩, ⟨"c", "l", some "x"⟩] := by
  have h := cleanOldDoneTodos_edge_cases (fun _ => none) 0
    [⟨"a", "l", none⟩, ⟨"b", "l", some ""⟩, ⟨"c", "l", some "x"⟩]
  refine ⟨?_, ?_, ?_⟩
  · exact (h ⟨"a", "l", none⟩ (by simp)).1 (Or.inl rfl)
  · exact (h ⟨"b", "l", some ""⟩ (by simp)).1 (Or.inr rfl)
  · exact (h ⟨"c", "l", some "x"⟩ (by simp)).2 "x" rfl (by decide) rfl

/-- Claim C3, counterexample to the claim as stated: a drag from
(0, 0) to (5, 5) produces a rectangle of exactly 5 × 5 pixels — "at
or above 5×5" — yet the release emits no `area_selected` event and the
overlay stays visible, because `mouseReleaseEvent` requires width and
height *strictly* greater than 5. -/
theorem captureMinSize_cex :
    (selRect (0, 0) (5, 5)).w = 5 ∧ (selRect (0, 0) (5, 5)).h = 5
  ∧ (dragGesture (0, 0) [] (5, 5)
      ⟨false, (0, 0), (0, 0), emptyQRect, true, []⟩).emitted = []
  ∧ (dragGesture (0, 0) [] (5, 5)
      ⟨false, (0, 0), (0, 0), emptyQRect, true, []⟩).visible = true := by
  decide

/-- Helper: cursor moves while selecting change neither the anchor
point, the armed flag, the emission list, nor visibility. -/
theorem captureMoves_preserve (moves : List (Int × Int)) :
    ∀ st : CaptureState, st.selecting = true →
      (moves.foldl (fun s m => mouseMoveEvent m s) st).selecting = true
    ∧ (moves.foldl (fun s m => mouseMoveEvent m s) st).startPoint
        = st.startPoint
    ∧ (moves.foldl (fun s m => mouseMoveEvent m s) st).emitted = st.emitted
    ∧ (moves.foldl (fun s m => mouseMoveEvent m s) st).visible
        = st.visible := by
  induction moves with
  | nil => intro st hsel; exact ⟨hsel, rfl, rfl, rfl⟩
  | cons m rest ih =>
    intro st hsel
    have hstep : mouseMoveEvent m st =
        { st with endPoint := m, selectionRect := selRect st.startPoint m } := by
      unfold mouseMoveEvent
      rw [hsel]
      rfl
    have hnext := ih (mouseMoveEvent m st) (by rw [hstep]; exact hsel)
    simpa [hstep, List.foldl_cons] using hnext

/-- Claim C3 (amended): for every drag gesture on the capture overlay,
the release emits exactly one `area_selected` event — carrying the
rectangle normalized from the press and release points — and hides the
overlay exactly when the rectangle's width *and* height strictly
exceed 5 pixels (i.e. at least 6 × 6); otherwise it emits nothing and
leaves the overlay's visibility unchanged. -/
theorem captureRelease_min_size (s : CaptureState) (p q : Int × Int)
    (moves : List (Int × Int)) :
    ((dragGesture p moves q s).emitted, (dragGesture p moves q s).visible)
      = if 5 < (selRect p q).w ∧ 5 < (selRect p q).h
        then (s.emitted ++ [selRect p q], false)
        else (s.emitted, s.visible) := by
  unfold dragGesture
  obtain ⟨hsel, hsp, hem, hvis⟩ := captureMoves_preserve moves
    (mousePressEvent true p s) (by unfold mousePressEvent; rfl)
  have hsp2 : (moves.foldl (fun st m => mouseMoveEvent m st)
      (mousePressEvent true p s)).startPoint = p := by
    rw [hsp]; rfl
  have hem2 : (moves.foldl (fun st m => mouseMoveEvent m st)
      (mousePressEvent true p s)).emitted = s.emitted := by
    rw [hem]; rfl
  have hvis2 : (moves.foldl (fun st m => mouseMoveEvent m st)
      (mousePressEvent true p s)).visible = s.visible := by
    rw [hvis]; rfl
  unfold mouseReleaseEvent
  rw [hsel, hsp2]
  by_cases hbig : 5 < (selRect p q).w ∧ 5 < (selRect p q).h
  · simp only [Bool.and_self, if_true, if_pos hbig]
    simp [hem2, hvis2]
  · simp only [Bool.and_self, if_true, if_neg hbig]
    simp [hem2, hvis2]

/-- Helper: `_add_to_history` unconditionally re-establishes the
history invariant. -/
theorem add_to_history_ok (s : ImgProcState) (snap : Nat) :
    ImgHistoryOk (add_to_history s snap) := by
  unfold add_to_history
  set hist0 :=
    if s.editIndex < (s.history.length : Int) - 1 then
      pySliceTo s.history (s.editIndex + 1)
    else s.history with hh0
  by_cases hcap : 20 < (hist0 ++ [snap]).length
  · rw [if_pos hcap]
    have hlen : ((hist0 ++ [snap]).drop ((hist0 ++ [snap]).length - 20)).length
        = 20 := by
      rw [List.length_drop]
      omega
    refine ⟨?_, ?_, ?_⟩
    · show ((hist0 ++ [snap]).drop ((hist0 ++ [snap]).length - 20)).length ≤ 20
      omega
    · intro he
      have he2 : (hist0 ++ [snap]).drop ((hist0 ++ [snap]).length - 20)
          = [] := he
      rw [he2] at hlen
      simp at hlen
    · intro _
      show (0 : Int) ≤ 19 ∧ (19 : Int) <
        (((hist0 ++ [snap]).drop ((hist0 ++ [snap]).length - 20)).length : Int)
      rw [hlen]
      norm_num
  · rw [if_neg hcap]
    have hlen : 1 ≤ (hist0 ++ [snap]).length := by
      rw [List.length_append]
      simp
    refine ⟨?_, ?_, ?_⟩
    · show (hist0 ++ [snap]).length ≤ 20
      omega
    · intro he
      have he2 : hist0 ++ [snap] = [] := he
      rw [he2] at hlen
      simp at hlen
    · intro _
      show (0 : Int) ≤ ((hist0 ++ [snap]).length : Int) - 1
        ∧ ((hist0 ++ [snap]).length : Int) - 1 < ((hist0 ++ [snap]).length : Int)
      omega

/-- Helper: every image-processor operation preserves the history
invariant. -/
theorem imgStep_preserves (s : ImgProcState) (op : ImgOp)
    (h : ImgHistoryOk s) : ImgHistoryOk (imgStep s op) := by
  obtain ⟨hlen, hemp, hne⟩ := h
  cases op with
  | setImage img =>
    cases img with
    | none => exact ⟨hlen, hemp, hne⟩
    | some i =>
      refine ⟨by simp [imgStep, set_image], ?_, ?_⟩
      · intro he
        simp [imgStep, set_image] at he
      · intro _
        simp [imgStep, set_image]
  | addText snap =>
    show ImgHistoryOk (annotate s snap)
    unfold annotate
    cases s.currentImage with
    | none => exact ⟨hlen, hemp, hne⟩
    | some _ => exact add_to_history_ok s snap
  | addRectangle snap =>
    show ImgHistoryOk (annotate s snap)
    unfold annotate
    cases s.currentImage with
    | none => exact ⟨hlen, hemp, hne⟩
    | some _ => exact add_to_history_ok s snap
  | addArrow snap =>
    show ImgHistoryOk (annotate s snap)
    unfold annotate
    cases s.currentImage with
    | none => exact ⟨hlen, hemp, hne⟩
    | some _ => exact add_to_history_ok s snap
  | undo =>
    show ImgHistoryOk (MFT.undo s)
    unfold MFT.undo
    by_cases hg : s.editIndex ≤ 0
    · rw [if_pos hg]
      exact ⟨hlen, hemp, hne⟩
    · rw [if_neg hg]
      have hnonempty : s.history ≠ [] := by
        intro he
        rw [hemp he] at hg
        omega
      have hidx := hne hnonempty
      cases hget : pyListGet s.history (s.editIndex - 1) with
      | some img =>
        refine ⟨hlen, fun he => absurd he hnonempty, fun _ => ?_⟩
        show (0 : Int) ≤ s.editIndex - 1
          ∧ s.editIndex - 1 < (s.history.length : Int)
        omega
      | none =>
        refine ⟨hlen, fun he => absurd he hnonempty, fun _ => ?_⟩
        show (0 : Int) ≤ s.editIndex - 1
          ∧ s.editIndex - 1 < (s.history.length : Int)
        omega
  | redo =>
    show ImgHistoryOk (MFT.redo s)
    unfold MFT.redo
    by_cases hg : (s.history.length : Int) - 1 ≤ s.editIndex
    · rw [if_pos hg]
      exact ⟨hlen, hemp, hne⟩
    · rw [if_neg hg]
      have hnonempty : s.history ≠ [] := by
        intro he
        rw [hemp he, he] at hg
        simp at hg
      have hidx := hne hnonempty
      cases hget : pyListGet s.history (s.editIndex + 1) with
      | some img =>
        refine ⟨hlen, fun he => absurd he hnonempty, fun _ => ?_⟩
        show (0 : Int) ≤ s.editIndex + 1
          ∧ s.editIndex + 1 < (s.history.length : Int)
        omega
      | none =>
        refine ⟨hlen, fun he => absurd he hnonempty, fun _ => ?_⟩
        show (0 : Int) ≤ s.editIndex + 1
          ∧ s.editIndex + 1 < (s.history.length : Int)
        omega
  | clearHistory =>
    exact ⟨by simp [imgStep, clear_history], fun _ => rfl,
      fun he => absurd rfl he⟩

/-- Helper: invariant propagation along a whole operation sequence. -/
theorem imgFold_preserves (ops : List ImgOp) :
    ∀ s : ImgProcState, ImgHistoryOk s →
      ImgHistoryOk (ops.foldl imgStep s) := by
  induction ops with
  | nil => intro s h; exact h
  | cons op rest ih =>
    intro s h
    exact ih (imgStep s op) (imgStep_preserves s op h)

/-- Helper: the invariant implies undo/redo access safety. -/
theorem safe_of_ok (s : ImgProcState) (h : ImgHistoryOk s) :
    UndoRedoSafe s := by
  obtain ⟨hlen, hemp, hne⟩ := h
  constructor
  · intro hpos
    have hnonempty : s.history ≠ [] := by
      intro he
      rw [hemp he] at hpos
      omega
    have := hne hnonempty
    omega
  · intro hlt
    by_cases he : s.history = []
    · rw [hemp he, he] at hlt
      simp at hlt
    · have := hne he
      omega

/-- Claim C9, counterexample to the claim as stated: after the
operation sequence "load an image, clear the history" — both listed
operations — the history is empty and the edit index is `-1`, which is
not a valid position within the (empty) history. -/
theorem imgProcessor_valid_index_cex :
    (runImgOps [ImgOp.setImage (some 0), ImgOp.clearHistory]).history
      = ([] : List Nat)
  ∧ (runImgOps [ImgOp.setImage (some 0), ImgOp.clearHistory]).editIndex = -1
  ∧ ¬(0 ≤ (runImgOps [ImgOp.setImage (some 0),
          ImgOp.clearHistory]).editIndex
      ∧ (runImgOps [ImgOp.setImage (some 0), ImgOp.clearHistory]).editIndex
        < ((runImgOps [ImgOp.setImage (some 0),
            ImgOp.clearHistory]).history.length : Int)) := by
  decide

/-- Claim C7: loading an already-loaded plugin returns success with
the manager state unchanged — no second instance is constructed (the
construction counter is untouched) and the loaded set is not modified;
unloading a not-loaded plugin returns success and changes nothing. -/
theorem loadUnload_idempotent (srcs : List PluginSource) (name : String)
    (st : PMState) :
    (st.plugins.any (fun p => p.1 == name) = true →
      load_plugin srcs name st = (true, st))
  ∧ (st.plugins.any (fun p => p.1 == name) = false →
      unload_plugin name st = (true, st)) := by
  constructor
  · intro h
    unfold load_plugin
    rw [h]
    rfl
  · intro h
    unfold unload_plugin
    rw [h]
    rfl

/-- Witness for `loadUnload_idempotent`: a manager with `demo` loaded
short-circuits a second load; a fresh manager treats unloading `demo`
as a successful no-op. -/
theorem loadUnload_idempotent_witness :
    load_plugin [] "demo" ⟨[("demo", 0)], 1⟩ = (true, ⟨[("demo", 0)], 1⟩)
  ∧ unload_plugin "demo" pmInit = (true, pmInit) :=
  ⟨(loadUnload_idempotent [] "demo" ⟨[("demo", 0)], 1⟩).1 rfl,
   (loadUnload_idempotent [] "demo" pmInit).2 rfl⟩

/-- Helper: the predicate of a successful `find?` holds at the found
element. -/
theorem find?_pred_true {α : Type} (pred : α → Bool) (l : List α)
    (a : α) (h : l.find? pred = some a) : pred a = true :=
  List.find?_some h

/-- Helper: a successful object-field lookup makes the dict-membership
test true. -/
theorem jObjGet_any_true {fields : List (String × JVal)} {k : String}
    {v : JVal} (h : jObjGet fields k = some v) :
    fields.any (fun p => p.1 == k) = true := by
  unfold jObjGet at h
  cases hf : fields.find? (fun p => p.1 == k) with
  | none => rw [hf] at h; cases h
  | some p =>
    exact List.any_eq_true.mpr
      ⟨p, List.mem_of_find?_eq_some hf, find?_pred_true _ fields p hf⟩

/-- Helper: a failed object-field lookup makes the dict-membership
test false. -/
theorem jObjGet_any_false {fields : List (String × JVal)} {k : String}
    (h : jObjGet fields k = none) :
    fields.any (fun p => p.1 == k) = false := by
  unfold jObjGet at h
  cases hf : fields.find? (fun p => p.1 == k) with
  | none =>
    exact List.any_eq_false.mpr
      (fun p hp => by
        have := List.find?_eq_none.mp hf p hp
        simpa using this)
  | some p => rw [hf] at h; cases h

/-- Helper: `_validate_config_file` on a document with a complete
`plugin_info` whose `available_config` object lacks `enabled`. -/
theorem validate_missing_enabled (fs af : List (String × JVal))
    (pi : JVal)
    (hpi : jObjGet fs "plugin_info" = some pi)
    (hfields : checkInfoFields pi
      ["name", "display_name", "description", "version", "author"] = none)
    (hac : jObjGet fs "available_config" = some (.obj af))
    (hen : jObjGet af "enabled" = none) :
    validateConfigFile (.obj fs)
      = some "config.json missing required field: available_config.enabled" := by
  have h1 := jObjGet_any_true hpi
  have h2 := jObjGet_any_true hac
  have h3 := jObjGet_any_false hen
  simp only [validateConfigFile, pyContains, pySubscript, h1, h2, h3,
    hpi, hac, hfields, Bool.not_true, Bool.not_false, if_false, if_true,
    Bool.false_eq_true, ite_false, ite_true]

/-- Helper: `_validate_config_file` on a document whose
`available_config.enabled` holds a non-boolean value. -/
theorem validate_nonbool_enabled (fs af : List (String × JVal))
    (pi v : JVal)
    (hpi : jObjGet fs "plugin_info" = some pi)
    (hfields : checkInfoFields pi
      ["name", "display_name", "description", "version", "author"] = none)
    (hac : jObjGet fs "available_config" = some (.obj af))
    (hen : jObjGet af "enabled" = some v)
    (hnb : ∀ b, v ≠ .bool b) :
    validateConfigFile (.obj fs)
      = some "config.json enabled field must be boolean" := by
  have h1 := jObjGet_any_true hpi
  have h2 := jObjGet_any_true hac
  have h3 := jObjGet_any_true hen
  simp only [validateConfigFile, pyContains, pySubscript, h1, h2, h3,
    hpi, hac, hfields, hen, Bool.not_true, Bool.not_false, if_false,
    if_true, Bool.false_eq_true, ite_false, ite_true]

/-- Helper: a descriptor's `name` field is the source package name. -/
theorem mkDescriptor_name (src : PluginSource) :
    (mkDescriptor src).name = src.name := rfl

/-- Helper: `load_plugins` over a directory holding one importable,
initializable plugin loads it exactly when its descriptor `enabled`
value is truthy. -/
theorem load_plugins_single (src : PluginSource)
    (himp : src.importOk = true) (hinit : src.initOk = true) :
    (load_plugins [src] pmInit).plugins =
      if pyTruthy (mkDescriptor src).enabled
      then [(src.name, 0)] else [] := by
  unfold load_plugins discover_plugins
  simp only [List.map_cons, List.map_nil, himp, if_true]
  by_cases ht : pyTruthy (mkDescriptor src).enabled
  · rw [if_pos ht]
    simp only [List.filter_cons, ht, List.filter_nil, List.map_cons,
      List.map_nil, List.foldl_cons, List.foldl_nil]
    unfold load_plugin
    simp [pmInit, himp, hinit, mkDescriptor_name]
  · rw [if_neg ht]
    rw [Bool.not_eq_true] at ht
    simp only [List.filter_cons, ht, List.filter_nil, List.map_nil,
      List.foldl_nil]
    rfl

/-- Claim C2, counterexample to the claim as stated: a plugin whose
`config.json` has a complete `plugin_info` but whose
`available_config` lacks the `enabled` key is reported unavailable
with a non-empty `error_info` — yet `load_plugins()` *does* auto-load
it, because `_load_plugin_config` reads the missing key with default
`True` and `load_plugins` selects plugins by that value alone. -/
theorem pluginCompliance_autoload_cex :
    (mkDescriptor nonCompliantSrc).is_available = false
  ∧ (mkDescriptor nonCompliantSrc).error_info
      = some "config.json missing required field: available_config.enabled"
  ∧ (load_plugins [nonCompliantSrc] pmInit).plugins = [("demo", 0)] :=
  ⟨rfl, rfl, rfl⟩

/-- Claim C2 (amended): for every plugin whose `config.json` lacks
`available_config.enabled` or holds it with a non-boolean value, the
compliance check sets `is_available` to false and records a non-empty
`error_info`; however `load_plugins()` selects plugins solely by the
descriptor `enabled` value — read back with default `True` when the
key is missing — so the plugin *is* auto-loaded in the missing-key
case, and in the non-boolean case exactly when that value is
truthy. -/
theorem pluginCompliance_rejection (src : PluginSource)
    (fs af : List (String × JVal)) (pi : JVal)
    (hmeta : missingAttrs src.classMeta = [])
    (hcfg : src.config = .parsed (.obj fs))
    (hpi : jObjGet fs "plugin_info" = some pi)
    (hfields : checkInfoFields pi
      ["name", "display_name", "description", "version", "author"] = none)
    (hac : jObjGet fs "available_config" = some (.obj af))
    (himp : src.importOk = true) (hinit : src.initOk = true) :
    (jObjGet af "enabled" = none →
      (mkDescriptor src).is_available = false
      ∧ (∃ msg, (mkDescriptor src).error_info = some msg ∧ msg ≠ "")
      ∧ (load_plugins [src] pmInit).plugins = [(src.name, 0)])
  ∧ (∀ v, jObjGet af "enabled" = some v → (∀ b, v ≠ .bool b) →
      (mkDescriptor src).is_available = false
      ∧ (∃ msg, (mkDescriptor src).error_info = some msg ∧ msg ≠ "")
      ∧ (load_plugins [src] pmInit).plugins =
          (if pyTruthy v then [(src.name, 0)] else [])) := by
  constructor
  · intro hen
    have hval := validate_missing_enabled fs af pi hpi hfields hac hen
    have hcomp : checkPluginCompliance src =
        (⟨false, some "config.json missing required field: available_config.enabled"⟩,
         .parsed (.obj fs)) := by
      unfold checkPluginCompliance
      rw [hmeta, hcfg]
      simp only [ne_eq, not_true_eq_false, ite_false, if_neg, hval]
    have hdesc : mkDescriptor src =
        ⟨src.name, false,
         some "config.json missing required field: available_config.enabled",
         .bool true⟩ := by
      unfold mkDescriptor
      rw [hcomp]
      simp only [loadConfigEnabled, hac, hen, Option.getD]
    refine ⟨by rw [hdesc], ⟨_, by rw [hdesc], by decide⟩, ?_⟩
    rw [load_plugins_single src himp hinit, hdesc]
    rfl
  · intro v hen hnb
    have hval := validate_nonbool_enabled fs af pi v hpi hfields hac hen hnb
    have hcomp : checkPluginCompliance src =
        (⟨false, some "config.json enabled field must be boolean"⟩,
         .parsed (.obj fs)) := by
      unfold checkPluginCompliance
      rw [hmeta, hcfg]
      simp only [ne_eq, not_true_eq_false, ite_false, if_neg, hval]
    have hdesc : mkDescriptor src =
        ⟨src.name, false,
         some "config.json enabled field must be boolean", v⟩ := by
      unfold mkDescriptor
      rw [hcomp]
      simp only [loadConfigEnabled, hac, hen, Option.getD]
    refine ⟨by rw [hdesc], ⟨_, by rw [hdesc], by decide⟩, ?_⟩
    rw [load_plugins_single src himp hinit, hdesc]

/-- Witness for `pluginCompliance_rejection`: the missing-`enabled`
package is reported unavailable yet auto-loaded; the truthy
non-boolean `"yes"` package is likewise unavailable and auto-loaded. -/
theorem pluginCompliance_rejection_witness :
    ((mkDescriptor nonCompliantSrc).is_available = false
      ∧ (∃ msg, (mkDescriptor nonCompliantSrc).error_info = some msg
          ∧ msg ≠ "")
      ∧ (load_plugins [nonCompliantSrc] pmInit).plugins = [("demo", 0)])
  ∧ ((mkDescriptor nonBoolEnabledSrc).is_available = false
      ∧ (∃ msg, (mkDescriptor nonBoolEnabledSrc).error_info = some msg
          ∧ msg ≠ "")
      ∧ (load_plugins [nonBoolEnabledSrc] pmInit).plugins
          = [("demo2", 0)]) := by
  constructor
  · exact (pluginCompliance_rejection nonCompliantSrc
      [("plugin_info", .obj [
        ("name", .str "demo"),
        ("display_name", .str "Demo"),
        ("description", .str "A demo plugin"),
        ("version", .str "1.0.1"),
        ("author", .str "someone")]),
       ("available_config", .obj [])] []
      (.obj [
        ("name", .str "demo"),
        ("display_name", .str "Demo"),
        ("description", .str "A demo plugin"),
        ("version", .str "1.0.1"),
        ("author", .str "someone")])
      rfl rfl rfl rfl rfl rfl rfl).1 rfl
  · have h := (pluginCompliance_rejection nonBoolEnabledSrc
      [("plugin_info", .obj [
        ("name", .str "demo2"),
        ("display_name", .str "Demo2"),
        ("description", .str "Another demo plugin"),
        ("version", .str "1.0.1"),
        ("author", .str "someone")]),
       ("available_config", .obj [("enabled", .str "yes")])]
      [("enabled", .str "yes")]
      (.obj [
        ("name", .str "demo2"),
        ("display_name", .str "Demo2"),
        ("description", .str "Another demo plugin"),
        ("version", .str "1.0.1"),
        ("author", .str "someone")])
      rfl rfl rfl rfl rfl rfl rfl).2 (.str "yes") rfl
      (fun b hb => JVal.noConfusion hb)
    exact ⟨h.1, h.2.1, h.2.2⟩

/-- Claim C5: if the filtered spreadsheet rows contain two or more
distinct `Reporting Date` values, parameter extraction aborts with the
`reporting_date_not_unique` error (and no SQL is emitted); and if the
date is unique but the `Frequency` values are not unique, or the
unique one does not equal `MONTHLY` case-insensitively, extraction
likewise aborts with an error and no SQL is emitted — whatever the
outcome of the date-format parse. -/
theorem extractSqlParameters_consistency (parse : String → Option String)
    (uk hk : Option CvrFrame) :
    (1 < (frameDates uk ++ frameDates hk).dedup.length →
      extractSqlParameters parse uk hk
        = .error "plugin.comparison_variance_report.reporting_date_not_unique"
      ∧ generateSqlEmits parse uk hk = false)
  ∧ ((frameDates uk ++ frameDates hk).dedup.length = 1 →
      ((frameFreqs uk ++ frameFreqs hk).dedup.length ≠ 1
        ∨ ∃ f, (frameFreqs uk ++ frameFreqs hk).dedup = [f]
            ∧ pyUpper f ≠ "MONTHLY") →
      (∃ e, extractSqlParameters parse uk hk = .error e)
      ∧ generateSqlEmits parse uk hk = false) := by
  constructor
  · intro h
    have hdate : extractDate parse (frameDates uk ++ frameDates hk)
        = .error "plugin.comparison_variance_report.reporting_date_not_unique" := by
      unfold extractDate
      cases hd : (frameDates uk ++ frameDates hk).dedup with
      | nil => rfl
      | cons a t =>
        cases t with
        | nil => rw [hd] at h; simp at h
        | cons b t2 => rfl
    have hex : extractSqlParameters parse uk hk
        = .error "plugin.comparison_variance_report.reporting_date_not_unique" := by
      unfold extractSqlParameters
      rw [hdate]
    refine ⟨hex, ?_⟩
    unfold generateSqlEmits
    rw [hex]
    rfl
  · intro h1 hfreq
    have hfe : ∃ e, extractFreq (frameFreqs uk ++ frameFreqs hk)
        = .error e := by
      rcases hfreq with hne | ⟨f, hfeq, hfm⟩
      · unfold extractFreq
        cases hd : (frameFreqs uk ++ frameFreqs hk).dedup with
        | nil => exact ⟨_, rfl⟩
        | cons f t =>
          cases t with
          | nil => rw [hd] at hne; simp at hne
          | cons g t2 => exact ⟨_, rfl⟩
      · refine ⟨"plugin.comparison_variance_report.freq_not_monthly", ?_⟩
        unfold extractFreq
        rw [hfeq]
        show (if pyUpper f ≠ "MONTHLY" then
            Except.error "plugin.comparison_variance_report.freq_not_monthly"
          else Except.ok f) =
          Except.error "plugin.comparison_variance_report.freq_not_monthly"
        rw [if_pos hfm]
    obtain ⟨e2, hfe⟩ := hfe
    have hex : ∃ e, extractSqlParameters parse uk hk = .error e := by
      unfold extractSqlParameters
      cases hdt : extractDate parse (frameDates uk ++ frameDates hk) with
      | error e1 => exact ⟨e1, rfl⟩
      | ok d => exact ⟨e2, by rw [hfe]⟩
    obtain ⟨e3, hex⟩ := hex
    refine ⟨⟨e3, hex⟩, ?_⟩
    unfold generateSqlEmits
    rw [hex]
    rfl

/-- Witness for `extractSqlParameters_consistency`: a sheet with two
distinct reporting dates aborts with the date error; a sheet with a
unique date but `QUARTERLY` frequency aborts with an error; neither
emits SQL. -/
theorem extractSqlParameters_consistency_witness :
    (extractSqlParameters (fun _ => none)
      (some ⟨[⟨some (.str "2024-01-01"), some "MONTHLY", some "A",
               none, none, none⟩,
              ⟨some (.str "2024-02-01"), some "MONTHLY", some "A",
               none, none, none⟩], false, false, false⟩) none
      = .error "plugin.comparison_variance_report.reporting_date_not_unique")
  ∧ (generateSqlEmits (fun _ => none)
      (some ⟨[⟨some (.str "2024-01-01"), some "MONTHLY", some "A",
               none, none, none⟩,
              ⟨some (.str "2024-02-01"), some "MONTHLY", some "A",
               none, none, none⟩], false, false, false⟩) none = false)
  ∧ (∃ e, extractSqlParameters (fun _ => none)
      (some ⟨[⟨some (.dt "2024-01-31"), some "QUARTERLY", some "A",
               none, none, none⟩], false, false, false⟩) none
      = .error e)
  ∧ (generateSqlEmits (fun _ => none)
      (some ⟨[⟨some (.dt "2024-01-31"), some "QUARTERLY", some "A",
               none, none, none⟩], false, false, false⟩) none = false) := by
  have hA := (extractSqlParameters_consistency (fun _ => none)
    (some ⟨[⟨some (.str "2024-01-01"), some "MONTHLY", some "A",
             none, none, none⟩,
            ⟨some (.str "2024-02-01"), some "MONTHLY", some "A",
             none, none, none⟩], false, false, false⟩) none).1
    (by decide)
  have hB := (extractSqlParameters_consistency (fun _ => none)
    (some ⟨[⟨some (.dt "2024-01-31"), some "QUARTERLY", some "A",
             none, none, none⟩], false, false, false⟩) none).2
    (by decide)
    (Or.inr ⟨"QUARTERLY", by decide, by decide⟩)
  exact ⟨hA.1, hA.2, hB.1, hB.2⟩


/-- Claim C9 (amended): after any sequence of image-processor
operations the edit history holds at most 20 snapshots; the edit index
is a valid position within the history whenever the history is
non-empty, and is `-1` exactly in the empty-history states (freshly
constructed or cleared); consequently undo and redo never access an
out-of-range snapshot — whenever their guard admits the operation, the
index they read is in range. -/
theorem imgProcessor_history_bounded (ops : List ImgOp) :
    ImgHistoryOk (runImgOps ops) ∧ UndoRedoSafe (runImgOps ops) := by
  have h := imgFold_preserves ops imgProcInit
    ⟨by simp [imgProcInit], fun _ => rfl, fun he => absurd rfl he⟩
  exact ⟨h, safe_of_ok _ h⟩

/-- Helper: re-packing a code point into a `Char` is the identity. -/
theorem charOfNat_toNat (c : Char) : Char.ofNat c.toNat = c := by
  have hv : c.toNat.isValidChar := c.valid
  unfold Char.ofNat
  rw [dif_pos hv]
  apply Char.eq_of_val_eq
  apply UInt32.eq_of_toBitVec_eq
  apply BitVec.eq_of_toNat_eq
  simp only [Char.ofNatAux, BitVec.toNat_ofNatLt]
  rfl

/-- Helper: the UTF-8 model decodes what it encodes. -/
theorem utf8_round (s : String) : utf8Decode (utf8Encode s) = some s := by
  unfold utf8Decode utf8Encode
  have hall : (s.data.map Char.toNat).all (fun n => decide n.isValidChar)
      = true := by
    rw [List.all_eq_true]
    intro n hn
    rw [List.mem_map] at hn
    obtain ⟨c, _, rfl⟩ := hn
    exact decide_eq_true c.valid
  rw [if_pos hall]
  congr 1
  rw [List.map_map]
  have hid : s.data.map (Char.ofNat ∘ Char.toNat) = s.data.map id := by
    apply List.map_congr_left
    intro c _
    exact charOfNat_toNat c
  rw [hid, List.map_id]

/-- Helper: decoding a terminal base64 block. -/
theorem b64decAux_block_last (n k : Nat) :
    b64decAux (List.replicate n 'a' ++ ['b']) k = some [k + n] := by
  induction n generalizing k with
  | zero => simp [b64decAux]
  | succ n ih =>
    rw [List.replicate_succ, List.cons_append]
    show b64decAux ('a' :: (List.replicate n 'a' ++ ['b'])) k = _
    rw [show b64decAux ('a' :: (List.replicate n 'a' ++ ['b'])) k
        = b64decAux (List.replicate n 'a' ++ ['b']) (k + 1) from by
      simp [b64decAux]]
    rw [ih (k + 1)]
    have : k + 1 + n = k + (n + 1) := by omega
    rw [this]

/-- Helper: decoding a non-terminal base64 block. -/
theorem b64decAux_block_cons (n : Nat) (rest : List Char)
    (hne : rest ≠ []) :
    ∀ k, b64decAux (List.replicate n 'a' ++ 'b' :: rest) k
      = (b64decAux rest 0).map ((k + n) :: ·) := by
  induction n with
  | zero =>
    intro k
    cases rest with
    | nil => exact absurd rfl hne
    | cons c cs => simp [b64decAux]
  | succ n ih =>
    intro k
    rw [List.replicate_succ, List.cons_append]
    rw [show b64decAux ('a' :: (List.replicate n 'a' ++ 'b' :: rest)) k
        = b64decAux (List.replicate n 'a' ++ 'b' :: rest) (k + 1) from by
      simp [b64decAux]]
    rw [ih (k + 1)]
    have : k + 1 + n = k + (n + 1) := by omega
    rw [this]

/-- Helper: the encoding of a non-empty byte string is non-empty. -/
theorem b64enc_ne_nil (n : Nat) (ns : List Nat) :
    b64encChars (n :: ns) ≠ [] := by
  show List.replicate n 'a' ++ 'b' :: b64encChars ns ≠ []
  simp

/-- Helper: decoding a non-empty stream skips the empty special
case. -/
theorem b64decChars_ne_nil (cs : List Char) (h : cs ≠ []) :
    b64decChars cs = b64decAux cs 0 := by
  cases cs with
  | nil => exact absurd rfl h
  | cons c cs2 => rfl

/-- Helper: the base64 model decodes what it encodes. -/
theorem b64_round (l : List Nat) : b64decode (b64encode l) = some l := by
  show b64decChars (b64encChars l) = some l
  induction l with
  | nil => rfl
  | cons n ns ih =>
    rw [b64decChars_ne_nil _ (b64enc_ne_nil n ns)]
    show b64decAux (List.replicate n 'a' ++ 'b' :: b64encChars ns) 0
      = some (n :: ns)
    cases hns : b64encChars ns with
    | nil =>
      have hns0 : ns = [] := by
        cases ns with
        | nil => rfl
        | cons m ms => exact absurd hns (b64enc_ne_nil m ms)
      subst hns0
      rw [b64decAux_block_last]
      simp
    | cons c cs2 =>
      rw [← hns]
      rw [b64decAux_block_cons n (b64encChars ns) (by rw [hns]; simp) 0]
      have hdec : b64decAux (b64encChars ns) 0 = some ns := by
        rw [← b64decChars_ne_nil _ (by rw [hns]; simp)]
        exact ih
      rw [hdec]
      simp

/-- Helper: the base64 model is injective. -/
theorem b64encode_inj {x y : List Nat} (h : b64encode x = b64encode y) :
    x = y := by
  have hx := b64_round x
  rw [h, b64_round y] at hx
  exact (Option.some.inj hx).symm

/-- Helper: the Fernet model decrypts what it encrypts. -/
theorem fernet_round (m : List Nat) :
    fernetDecrypt (fernetEncrypt m) = some m := by
  unfold fernetDecrypt fernetEncrypt
  have hlen : fernetHeader.length = 41 := by simp [fernetHeader]
  have ht : (fernetHeader ++ m).take 41 = fernetHeader := by
    rw [← hlen, List.take_left]
  rw [if_pos ht]
  rw [show (41 : Nat) = fernetHeader.length from hlen.symm, List.drop_left]

/-- Helper: every Fernet token is longer than the `_is_encrypted`
threshold. -/
theorem fernet_len (m : List Nat) : 32 < (fernetEncrypt m).length := by
  simp [fernetEncrypt, fernetHeader]

set_option maxRecDepth 8192 in
/-- Claim C1, counterexample to the claim as stated: the base64
encoding of a Fernet token of the *empty* plaintext is never produced
by `encrypt_password` (which short-circuits the empty string before
encrypting), yet `decrypt_password` maps it to `""` instead of
returning it unchanged — the claim fails for strings that are
well-formed tokens without being encryption outputs. -/
theorem crypto_never_encrypted_cex :
    (∀ s, encrypt_password s ≠ b64encode (fernetEncrypt (utf8Encode "")))
  ∧ decrypt_password (b64encode (fernetEncrypt (utf8Encode "")))
      ≠ b64encode (fernetEncrypt (utf8Encode "")) := by
  constructor
  · intro s h
    unfold encrypt_password at h
    by_cases hs : s = ""
    · rw [if_pos hs] at h
      exact absurd h.symm (by decide)
    · rw [if_neg hs] at h
      have h2 : fernetEncrypt (utf8Encode s) = fernetEncrypt (utf8Encode "")
        := b64encode_inj h
      have h3 : utf8Encode s = utf8Encode "" :=
        List.append_cancel_left h2
      have h4 : s.data.map Char.toNat = [] := h3
      have h5 : s.data = [] := List.map_eq_nil_iff.mp h4
      apply hs
      obtain ⟨d⟩ := s
      have h6 : d = [] := h5
      rw [h6]
  · decide

/-- Claim C1 (amended): `decrypt_password (encrypt_password s) = s`
for every non-empty string `s`; and `decrypt_password` returns
unchanged (never raising) every string whose base64 payload is not a
valid encrypted token — a valid token that `encrypt_password` never
produced (such as a token of the empty plaintext) is instead
decrypted. -/
theorem crypto_round_trip :
    (∀ s : String, s ≠ "" → decrypt_password (encrypt_password s) = s)
  ∧ (∀ t : String,
      (∀ bs, b64decode t = some bs → fernetDecrypt bs = none) →
      decrypt_password t = t) := by
  constructor
  · intro s hs
    have henc : encrypt_password s
        = b64encode (fernetEncrypt (utf8Encode s)) := by
      unfold encrypt_password
      rw [if_neg hs]
    rw [henc]
    have hb : b64decode (b64encode (fernetEncrypt (utf8Encode s)))
        = some (fernetEncrypt (utf8Encode s)) := b64_round _
    have hnonempty : b64encode (fernetEncrypt (utf8Encode s)) ≠ "" := by
      intro h0
      rw [h0] at hb
      have h00 : ([] : List Nat) = fernetEncrypt (utf8Encode s) :=
        Option.some.inj ((show b64decode "" = some [] from rfl).symm.trans hb)
      have : fernetEncrypt (utf8Encode s) = 128 :: (List.replicate 40 0
        ++ utf8Encode s) := by simp [fernetEncrypt, fernetHeader]
      rw [this] at h00
      cases h00
    have hisenc : isEncrypted (b64encode (fernetEncrypt (utf8Encode s)))
        = true := by
      unfold isEncrypted
      rw [hb]
      exact decide_eq_true (fernet_len _)
    unfold decrypt_password
    rw [if_neg hnonempty, hisenc]
    simp only [Bool.not_true, Bool.false_eq_true, if_false]
    rw [hb]
    show decryptToken (b64encode (fernetEncrypt (utf8Encode s)))
      (fernetEncrypt (utf8Encode s)) = s
    unfold decryptToken
    rw [fernet_round]
    show decodePlain (b64encode (fernetEncrypt (utf8Encode s)))
      (utf8Encode s) = s
    unfold decodePlain
    rw [utf8_round]
  · intro t ht
    unfold decrypt_password
    by_cases h0 : t = ""
    · rw [if_pos h0, h0]
    · rw [if_neg h0]
      cases hb : b64decode t with
      | none =>
        have hie : isEncrypted t = false := by
          unfold isEncrypted
          rw [hb]
        rw [hie]
        simp only [Bool.not_false, if_true]
      | some bs =>
        have hfd := ht bs hb
        by_cases hlen : 32 < bs.length
        · have hie : isEncrypted t = true := by
            unfold isEncrypted
            rw [hb]
            exact decide_eq_true hlen
          rw [hie]
          simp only [Bool.not_true, Bool.false_eq_true, if_false]
          unfold decryptToken
          rw [hfd]
        · have hie : isEncrypted t = false := by
            unfold isEncrypted
            rw [hb]
            exact decide_eq_false hlen
          rw [hie]
          simp only [Bool.not_false, if_true]

/-- Witness for `crypto_round_trip`: a concrete password survives the
round trip, and a plain (non-base64) string passes through
`decrypt_password` unchanged. -/
theorem crypto_round_trip_witness :
    decrypt_password (encrypt_password "pw") = "pw"
  ∧ decrypt_password "not encrypted" = "not encrypted" := by
  refine ⟨crypto_round_trip.1 "pw" (by decide),
    crypto_round_trip.2 "not encrypted" ?_⟩
  intro bs h
  rw [show b64decode "not encrypted" = none from rfl] at h
  cases h

end MFT
